import Mathlib

/-!
Verification of the ftl-robot-host port router (src/robot.js) and the
PololuAstarBoard peripheral driver (src/unnamed/part_000).

The JavaScript sources are shallowly embedded: JS numbers holding bytes or
register offsets become `Nat`, JS `undefined`-able fields become `Option`,
`throw` becomes `Except.error`, and the i2c bus plus the flush timer are
observed through an explicit event trace.
-/

/- ===================== PololuAstarBoard driver ===================== -/

/-- Decoded board state snapshot (`d_boardState` in the driver).  The JS code
stores the raw 0/1 bit values for buttons and digital inputs; their truthiness
is modelled as `Bool` (a stored bit is truthy exactly when it equals 1). -/
structure BoardState where
  buttonA : Bool
  buttonB : Bool
  buttonC : Bool
  battMV : Nat
  digitalIn : List Bool
  analogIn : List Nat
deriving DecidableEq

/-- Observable events of the buffered-write path: an i2c block write
(`d_i2c.writeSync(addr, offset, payload)`) and the scheduling of the one-shot
flush timer (`setTimeout(this.flushWrite.bind(this), 25)`). -/
inductive BusEvent
  | blockWrite (addr : Nat) (offset : Nat) (payload : List Nat)
  | scheduleFlushTimer
deriving DecidableEq

/-- Mutable state of a `PololuAstarBoard` instance: the i2c address `d_addr`,
the last polled register image `d_lastBuf`, the pending write buffer
`d_outBuf` (`none` while the JS field is still `undefined`), the
`d_hasNewData` flag (`undefined` is modelled as `false`), and the decoded
board state. -/
structure AstarState where
  addr : Nat
  lastBuf : List Nat
  outBuf : Option (List Nat)
  hasNewData : Bool
  boardState : BoardState
deriving DecidableEq

/-- Node `Buffer` element assignment `buf[i] = v`: the stored value is coerced
to a byte and out-of-range assignments are dropped, which is exactly the
behaviour of `List.set`. -/
def bufSet (buf : List Nat) (i : Nat) (v : Nat) : List Nat :=
  buf.set i (v % 256)

/-- The analog decode loop body of `getBoardStatus`:
`ainVals[i] = (buf[byteStart] << 8) + buf[byteStart + 1]` with
`byteStart = 5 + i * 2`. -/
def decodeAnalog (buf : List Nat) (i : Nat) : Nat :=
  ((buf.getD (5 + i * 2) 0) <<< 8) + buf.getD (5 + i * 2 + 1) 0

/-- The digital decode loop body of `getBoardStatus`:
`(dinVals >> i) & 0x1`, truthy exactly when the bit is 1. -/
def decodeDin (buf : List Nat) (i : Nat) : Bool :=
  (((buf.getD 4 0) >>> i) &&& 0x1) == 1

/-- Decoding part of `getBoardStatus`: byte 3 carries the three button bits,
byte 4 the six digital-input bits, bytes 5..14 five big-endian 16-bit analog
readings, bytes 15..16 the big-endian 16-bit battery millivolts.  The two
decode loops run over the fixed 5- and 6-element state arrays and are unrolled
here.  Reading an absent byte yields `undefined`, which behaves as 0 in the JS
bitwise expressions, hence `getD _ 0`. -/
def decodeBoardStatus (buf : List Nat) (bs : BoardState) : BoardState :=
  { bs with
    analogIn := [decodeAnalog buf 0, decodeAnalog buf 1, decodeAnalog buf 2,
                 decodeAnalog buf 3, decodeAnalog buf 4]
    buttonA := ((buf.getD 3 0) &&& 0x1) == 1
    buttonB := (((buf.getD 3 0) >>> 0x1) &&& 0x1) == 1
    buttonC := (((buf.getD 3 0) >>> 0x2) &&& 0x1) == 1
    digitalIn := [decodeDin buf 0, decodeDin buf 1, decodeDin buf 2,
                  decodeDin buf 3, decodeDin buf 4, decodeDin buf 5]
    battMV := ((buf.getD 15 0) <<< 8) + buf.getD 16 0 }

/-- `getBoardStatus`, with the 23-byte block returned by
`d_i2c.readSync(d_addr, 0, 23)` passed in as `buf`.  It stores the fresh image
in `d_lastBuf`, unconditionally replaces `d_outBuf` with a copy of it, and
decodes the image into `d_boardState`. -/
def getBoardStatus (buf : List Nat) (s : AstarState) : AstarState :=
  { s with
    lastBuf := buf
    outBuf := some buf
    boardState := decodeBoardStatus buf s.boardState }

/-- `flushWrite`: a no-op unless `d_hasNewData` is truthy; otherwise it writes
the whole pending buffer to the board at offset 0 and resets `d_outBuf` to a
copy of `d_lastBuf`.  Note that the source never clears `d_hasNewData`. -/
def flushWrite (s : AstarState) : AstarState × List BusEvent :=
  if s.hasNewData then
    ({ s with outBuf := some s.lastBuf },
      [BusEvent.blockWrite s.addr 0 (s.outBuf.getD [])])
  else
    (s, [])

/-- `setupWrite`: lazily creates `d_outBuf` from `d_lastBuf`, schedules the
25-time-unit flush timer only when `d_hasNewData` is falsy, and then sets
`d_hasNewData`. -/
def setupWrite (s : AstarState) : AstarState × List BusEvent :=
  let s1 := if s.outBuf.isNone then { s with outBuf := some s.lastBuf } else s
  let evs := if s1.hasNewData then ([] : List BusEvent) else [BusEvent.scheduleFlushTimer]
  ({ s1 with hasNewData := true }, evs)

/-- `writeByte(register, byte)`: buffered single-byte write. -/
def writeByte (s : AstarState) (register byte : Nat) : AstarState × List BusEvent :=
  let p := setupWrite s
  ({ p.1 with outBuf := some (bufSet (p.1.outBuf.getD []) register byte) }, p.2)

/-- `writeWord(register, word)`: buffered big-endian two-byte write. -/
def writeWord (s : AstarState) (register word : Nat) : AstarState × List BusEvent :=
  let p := setupWrite s
  let b1 := bufSet (p.1.outBuf.getD []) register ((word >>> 8) &&& 0xFF)
  let b2 := bufSet b1 (register + 1) (word &&& 0xFF)
  ({ p.1 with outBuf := some b2 }, p.2)

/-- The copy loop of `writeBuffer`: `d_outBuf[register + i] = buffer[i]`. -/
def copyInto (dst : List Nat) (register : Nat) : List Nat → List Nat
  | [] => dst
  | b :: rest => copyInto (bufSet dst register b) (register + 1) rest

/-- `writeBuffer(register, buffer)`: buffered block write. -/
def writeBuffer (s : AstarState) (register : Nat) (buffer : List Nat) :
    AstarState × List BusEvent :=
  let p := setupWrite s
  ({ p.1 with outBuf := some (copyInto (p.1.outBuf.getD []) register buffer) }, p.2)

/-- One request on the buffered write path. -/
inductive BufWriteOp
  | byte (register value : Nat)
  | word (register value : Nat)
  | buffer (register : Nat) (data : List Nat)
deriving DecidableEq

/-- Dispatch one buffered-write request to the corresponding driver method. -/
def applyBufWrite (s : AstarState) : BufWriteOp → AstarState × List BusEvent
  | .byte r v => writeByte s r v
  | .word r v => writeWord s r v
  | .buffer r d => writeBuffer s r d

/-- Run a sequence of buffered-write requests, concatenating the traces. -/
def runBufWrites (s : AstarState) : List BufWriteOp → AstarState × List BusEvent
  | [] => (s, [])
  | op :: rest =>
    let p := applyBufWrite s op
    let q := runBufWrites p.1 rest
    (q.1, p.2 ++ q.2)

/-- The pure buffer mutation performed by one buffered-write request. -/
def stepBuf (b : List Nat) : BufWriteOp → List Nat
  | .byte r v => bufSet b r v
  | .word r v => bufSet (bufSet b r ((v >>> 8) &&& 0xFF)) (r + 1) (v &&& 0xFF)
  | .buffer r d => copyInto b r d

/-- Overlay of a whole sequence of buffered writes onto a buffer image. -/
def mergeWrites (b : List Nat) : List BufWriteOp → List Nat
  | [] => b
  | op :: rest => mergeWrites (stepBuf b op) rest

/-- Modelled from the spec: `constants.js` is not among the sources; §6 lists
the recognized pin modes INPUT, INPUT_PULLUP and OUTPUT
(`Constants.PinModes`). -/
inductive PinMode
  | INPUT
  | INPUT_PULLUP
  | OUTPUT
deriving DecidableEq

/-- The `switch (mode)` of `configurePin`: mode bits OR-ed onto `0x4`. -/
def modeBits : PinMode → Nat
  | .INPUT => 0x1
  | .INPUT_PULLUP => 0x2
  | .OUTPUT => 0x0

/-- `configurePin(channel, mode)`: computes the config byte index
`floor(channel / 2)`, merges the 4-bit setting `0x4 | mode_bits` into the high
nibble (even channel) or low nibble (odd channel) of the last-known byte, and
returns the `(register, byte)` pair passed to `d_i2c.writeByteSync`. -/
def configurePin (s : AstarState) (channel : Nat) (mode : PinMode) : Nat × Nat :=
  let configByteIdx := channel / 2
  let configByte := s.lastBuf.getD configByteIdx 0
  let newSetting := 0x4 ||| modeBits mode
  let outByte :=
    if channel % 2 = 0 then
      ((newSetting <<< 4) &&& 0xF0) ||| (configByte &&& 0xF)
    else
      (configByte &&& 0xF0) ||| (newSetting &&& 0xF)
  (configByteIdx, outByte)

/-- JS `Math.round`: round half toward positive infinity. -/
def mathRound (q : ℚ) : ℤ := ⌊q + 1 / 2⌋

/-- JS `n & 0xFFFF` for an integer already in int32 range: the low 16 bits of
the two's-complement representation, i.e. `n` reduced modulo 2^16. -/
def jsAnd0xFFFF (n : ℤ) : Nat := (n % 65536).toNat

/-- `writePWM(channel, value)` of the driver: clamp into [-1, 1], split off
the sign, scale the magnitude by 400, restore the sign, `Math.round`, and send
the 16-bit word to register `19 + 2 * channel`.  The result is the
`(register, word)` pair passed to `d_i2c.writeWordSync`. -/
def writePWMWire (channel : Nat) (value : ℚ) : Nat × Nat :=
  let v1 := if value < -1 then -1 else value
  let v2 := if v1 > 1 then 1 else v1
  let p := if v2 < 0 then (true, -v2) else (false, v2)
  let output : ℚ := p.2 * 400
  let output2 := if p.1 then -output else output
  let outInt := mathRound output2
  let chOffset := 19 + channel * 2
  (chOffset, jsAnd0xFFFF outInt)

/-- Clamp to [-1, 1] as the spec words it. -/
def clampUnit (v : ℚ) : ℚ := max (-1) (min 1 v)

/-- 16-bit two's-complement encoding of a signed value, as the spec words it. -/
def twosComplement16 (n : ℤ) : Nat := (n % 65536).toNat

/- ===================== PortRouter (src/robot.js) ===================== -/

/-- Modelled from the spec: `constants.js` is not among the sources; §6 lists
the recognized direction constraints IN, OUT and BOTH
(`Constants.PortDirections`, BOTH being the default when unset). -/
inductive PortDirection
  | IN
  | OUT
  | BOTH
deriving DecidableEq

/-- One value of the configuration's `portMap` object. -/
structure PortMapValue where
  deviceId : String
  devicePortType : String
  devicePort : Nat
  direction : Option PortDirection
deriving DecidableEq

/-- One entry of `d_portDeviceMaps`.  The `device` field holds the device the
id resolves to (`this.d_devices[mapInfo.deviceId]`); it is identified here by
that id. -/
structure DeviceMapInfo where
  device : String
  devicePortType : String
  devicePort : Nat
  direction : Option PortDirection
deriving DecidableEq

/-- The errors thrown by `robot.js`, one constructor per distinct `throw new
Error(...)` message. -/
inductive RobotError
  | alreadyMappedPort (portName : String)
  | invalidPinMode (mode : String)
  | nonConfigurablePin (channelName : String)
  | unmappedPin (channelName : String)
  | unmappedWritePort (channelName : String)
  | unmappedReadPort (channelName : String)
deriving DecidableEq

/-- JS object property lookup `d_portDeviceMaps[name]` over the entry list
(`none` models `undefined`). -/
def lookupPort (m : List (String × DeviceMapInfo)) (name : String) : Option DeviceMapInfo :=
  match m with
  | [] => none
  | (k, v) :: rest => if k = name then some v else lookupPort rest name

/-- The port-map loop of `setupDevices` (robot.js lines 87-103).  The
configuration's `portMap` is modelled as the ordered list of its entries so
that a configuration binding the same channel name twice is expressible; the
loop throws on an already-mapped port name and otherwise appends the resolved
entry to `d_portDeviceMaps`. -/
def buildPortDeviceMaps :
    List (String × PortMapValue) → List (String × DeviceMapInfo) →
    Except RobotError (List (String × DeviceMapInfo))
  | [], acc => Except.ok acc
  | (portName, mapInfo) :: rest, acc =>
    if (lookupPort acc portName).isSome then
      Except.error (RobotError.alreadyMappedPort portName)
    else
      buildPortDeviceMaps rest
        (acc ++ [(portName,
          { device := mapInfo.deviceId
            devicePortType := mapInfo.devicePortType
            devicePort := mapInfo.devicePort
            direction := mapInfo.direction })])

/-- Port-map construction as run by the `Robot` constructor, starting from the
empty `d_portDeviceMaps`. -/
def setupPortMap (portMap : List (String × PortMapValue)) :
    Except RobotError (List (String × DeviceMapInfo)) :=
  buildPortDeviceMaps portMap []

/-- Router state: the constructed port-device map and the `d_enabled` flag. -/
structure Robot where
  portDeviceMaps : List (String × DeviceMapInfo)
  enabled : Bool
deriving DecidableEq

/-- A call delegated to a device object, as observed by the router layer. -/
inductive DeviceCall
  | configurePinCall (device : String) (devicePort : Nat) (mode : String)
  | writeBool (device : String) (devicePortType : String) (devicePort : Nat) (value : Bool)
  | writeNum (device : String) (devicePortType : String) (devicePort : Nat) (value : ℚ)
  | readCall (device : String) (devicePortType : String) (devicePort : Nat)
deriving DecidableEq

/-- Modelled from the spec: the key lookup `Constants.PinModes[mode]`
(`constants.js` is not among the sources); §6 names the recognized pin modes
INPUT, INPUT_PULLUP and OUTPUT. -/
def pinModeOfString (mode : String) : Option PinMode :=
  if mode = "INPUT" then some PinMode.INPUT
  else if mode = "INPUT_PULLUP" then some PinMode.INPUT_PULLUP
  else if mode = "OUTPUT" then some PinMode.OUTPUT
  else none

/-- `configureDigitalPinMode(channel, mode)`: invalid-mode check first, then
channel-name lookup; a mapped entry with a configured direction is
non-configurable, a missing entry throws, otherwise the call is delegated to
`device.configurePin`. -/
def Robot.configureDigitalPinMode (r : Robot) (channel : Nat) (mode : String) :
    Except RobotError DeviceCall :=
  let channelName := "D-" ++ toString channel
  if (pinModeOfString mode).isNone then
    Except.error (RobotError.invalidPinMode mode)
  else
    match lookupPort r.portDeviceMaps channelName with
    | some info =>
      if info.direction.isSome then
        Except.error (RobotError.nonConfigurablePin channelName)
      else
        Except.ok (DeviceCall.configurePinCall info.device info.devicePort mode)
    | none => Except.error (RobotError.unmappedPin channelName)

/-- `writeDigital(channel, value)`: returns immediately while disabled (the JS
`value = !!value` coercion is the identity on `Bool`); otherwise delegates to
`device.write` or throws on an unmapped port.  The result lists the device
calls made. -/
def Robot.writeDigital (r : Robot) (channel : Nat) (value : Bool) :
    Except RobotError (List DeviceCall) :=
  if !r.enabled then Except.ok []
  else
    let channelName := "D-" ++ toString channel
    match lookupPort r.portDeviceMaps channelName with
    | some info =>
      Except.ok [DeviceCall.writeBool info.device info.devicePortType info.devicePort value]
    | none => Except.error (RobotError.unmappedWritePort channelName)

/-- `writePWM(channel, value)`: same shape as `writeDigital` with the `PWM-`
channel name and a numeric value. -/
def Robot.writePWM (r : Robot) (channel : Nat) (value : ℚ) :
    Except RobotError (List DeviceCall) :=
  if !r.enabled then Except.ok []
  else
    let channelName := "PWM-" ++ toString channel
    match lookupPort r.portDeviceMaps channelName with
    | some info =>
      Except.ok [DeviceCall.writeNum info.device info.devicePortType info.devicePort value]
    | none => Except.error (RobotError.unmappedWritePort channelName)

/-- `readDigital(channel)`: delegates `device.read` for a mapped `D-` channel,
throws otherwise; the enabled flag is never consulted. -/
def Robot.readDigital (r : Robot) (channel : Nat) : Except RobotError DeviceCall :=
  let channelName := "D-" ++ toString channel
  match lookupPort r.portDeviceMaps channelName with
  | some info => Except.ok (DeviceCall.readCall info.device info.devicePortType info.devicePort)
  | none => Except.error (RobotError.unmappedReadPort channelName)

/-- `readAnalog(channel)`: as `readDigital` with the `A-` channel name. -/
def Robot.readAnalog (r : Robot) (channel : Nat) : Except RobotError DeviceCall :=
  let channelName := "A-" ++ toString channel
  match lookupPort r.portDeviceMaps channelName with
  | some info => Except.ok (DeviceCall.readCall info.device info.devicePortType info.devicePort)
  | none => Except.error (RobotError.unmappedReadPort channelName)

/-- `readBattMV()`: as the other reads with the literal channel name `batt`. -/
def Robot.readBattMV (r : Robot) : Except RobotError DeviceCall :=
  let channelName := "batt"
  match lookupPort r.portDeviceMaps channelName with
  | some info => Except.ok (DeviceCall.readCall info.device info.devicePortType info.devicePort)
  | none => Except.error (RobotError.unmappedReadPort channelName)

/- ===================== getPortList ===================== -/

/-- Split a char list at `-` separators, accumulating the current segment in
reverse. -/
def splitDashAux : List Char → List Char → List String
  | [], cur => [String.mk cur.reverse]
  | c :: rest, cur =>
    if c = '-' then String.mk cur.reverse :: splitDashAux rest []
    else splitDashAux rest (c :: cur)

/-- JS `portName.split('-')`. -/
def jsSplitDash (s : String) : List String := splitDashAux s.data []

/-- Maximal run of leading decimal digits. -/
def parseDigitsAcc (acc : Nat) : List Char → Nat
  | [] => acc
  | c :: rest => if c.isDigit then parseDigitsAcc (acc * 10 + (c.toNat - 48)) rest else acc

/-- `none` unless the list starts with a decimal digit; otherwise the value of
the maximal leading digit run. -/
def parseLeadingDigits : List Char → Option Nat
  | [] => none
  | c :: rest => if c.isDigit then some (parseDigitsAcc (c.toNat - 48) rest) else none

/-- JS `parseInt(s, 10)`: an optional sign followed by the maximal leading
digit run; `none` models `NaN`.  (Leading-whitespace trimming is omitted:
the inputs are port-map key fragments.) -/
def jsParseInt (s : String) : Option Int :=
  match s.data with
  | [] => none
  | c :: rest =>
    if c = '-' then (parseLeadingDigits rest).map (fun n => -(n : Int))
    else if c = '+' then (parseLeadingDigits rest).map (fun n => (n : Int))
    else (parseLeadingDigits (c :: rest)).map (fun n => (n : Int))

/-- One element of the arrays returned by `getPortList`.  The source pushes
`{channel, direction}` objects onto the digital list but only `{channel}`
objects onto the analog and pwm lists; the absent property is `none`. -/
structure PortListEntry where
  channel : Int
  direction : Option PortDirection
deriving DecidableEq

/-- The `{digital, analog, pwm}` object returned by `getPortList`. -/
structure PortList where
  digital : List PortListEntry
  analog : List PortListEntry
  pwm : List PortListEntry
deriving DecidableEq

/-- One iteration of the `getPortList` loop: split the port name on `-`, skip
names with fewer than two segments or a non-numeric channel, and push the
entry onto the list selected by the name's type segment. -/
def portEntryStep (acc : PortList) (portName : String) (pData : DeviceMapInfo) : PortList :=
  let portNameSplit := jsSplitDash portName
  if portNameSplit.length < 2 then acc
  else
    let pType := portNameSplit.getD 0 ""
    match jsParseInt (portNameSplit.getD 1 "") with
    | none => acc
    | some pChannel =>
      if pType = "D" then
        { acc with digital := acc.digital ++
            [{ channel := pChannel
               direction := some (pData.direction.getD PortDirection.BOTH) }] }
      else if pType = "A" then
        { acc with analog := acc.analog ++ [{ channel := pChannel, direction := none }] }
      else if pType = "PWM" then
        { acc with pwm := acc.pwm ++ [{ channel := pChannel, direction := none }] }
      else acc

/-- `getPortList()`: fold the loop body over the entries of
`d_portDeviceMaps`, starting from three empty lists. -/
def Robot.getPortList (r : Robot) : PortList :=
  r.portDeviceMaps.foldl (fun acc p => portEntryStep acc p.1 p.2)
    { digital := [], analog := [], pwm := [] }

/-- Declarative description of the digital entries produced by `getPortList`:
a `D-<n>` key contributes its channel and its direction, defaulting to BOTH. -/
def portMapEntryD (p : String × DeviceMapInfo) : Option PortListEntry :=
  let parts := jsSplitDash p.1
  if parts.length < 2 then none
  else
    match jsParseInt (parts.getD 1 "") with
    | none => none
    | some ch =>
      if parts.getD 0 "" = "D" then
        some { channel := ch, direction := some (p.2.direction.getD PortDirection.BOTH) }
      else none

/-- Declarative description of the analog entries produced by `getPortList`:
an `A-<n>` key contributes only its channel number. -/
def portMapEntryA (p : String × DeviceMapInfo) : Option PortListEntry :=
  let parts := jsSplitDash p.1
  if parts.length < 2 then none
  else
    match jsParseInt (parts.getD 1 "") with
    | none => none
    | some ch =>
      if parts.getD 0 "" = "D" then none
      else if parts.getD 0 "" = "A" then some { channel := ch, direction := none }
      else none

/-- Declarative description of the pwm entries produced by `getPortList`:
a `PWM-<n>` key contributes only its channel number. -/
def portMapEntryPWM (p : String × DeviceMapInfo) : Option PortListEntry :=
  let parts := jsSplitDash p.1
  if parts.length < 2 then none
  else
    match jsParseInt (parts.getD 1 "") with
    | none => none
    | some ch =>
      if parts.getD 0 "" = "D" then none
      else if parts.getD 0 "" = "A" then none
      else if parts.getD 0 "" = "PWM" then some { channel := ch, direction := none }
      else none

/- ===================== Concrete example states ===================== -/

/-- The initial `d_boardState` of the driver constructor. -/
def boardState0 : BoardState :=
  { buttonA := false, buttonB := false, buttonC := false, battMV := 0
    digitalIn := List.replicate 6 false, analogIn := List.replicate 5 0 }

/-- A 23-byte poll image with byte 3 = 0b00000101, bytes 5..6 = 0x01 0x2C and
bytes 15..16 = 0x03 0xE8. -/
def exBoardBuf : List Nat :=
  [0, 0, 0, 5, 0, 1, 44, 0, 0, 0, 0, 0, 0, 0, 0, 3, 232, 0, 0, 0, 0, 0, 0]

/-- A quiescent driver state: all-zero 23-byte image, no pending write. -/
def quietAstar : AstarState :=
  { addr := 20, lastBuf := List.replicate 23 0, outBuf := none
    hasNewData := false, boardState := boardState0 }

/-- A driver state with an unflushed buffered write pending. -/
def pendingAstar : AstarState :=
  { addr := 20, lastBuf := List.replicate 23 0
    outBuf := some (bufSet (List.replicate 23 0) 18 1)
    hasNewData := true, boardState := boardState0 }

/-- Three buffered writes issued inside one quiescence window. -/
def threeWrites : List BufWriteOp :=
  [BufWriteOp.byte 18 1, BufWriteOp.byte 18 3, BufWriteOp.word 19 400]

/-- A driver state whose config byte 0 is 0x23. -/
def nibbleAstar : AstarState :=
  { addr := 20, lastBuf := 0x23 :: List.replicate 22 0, outBuf := none
    hasNewData := false, boardState := boardState0 }

/-- A port map binding the same channel name twice. -/
def dupPortMap : List (String × PortMapValue) :=
  [("D-0", { deviceId := "astar", devicePortType := "digitalOut", devicePort := 0
             direction := none }),
   ("D-0", { deviceId := "astar", devicePortType := "digitalOut", devicePort := 1
             direction := none })]

/-- An enabled router with an empty port-device map: every channel is
unmapped. -/
def emptyRobot : Robot := { portDeviceMaps := [], enabled := true }

/-- A disabled router with one mapped digital channel. -/
def disabledRobot : Robot :=
  { portDeviceMaps :=
      [("D-0", { device := "astar", devicePortType := "digitalOut", devicePort := 0
                 direction := none })]
    enabled := false }

/-- A port-device map whose lone analog channel was configured with an IN
direction constraint. -/
def analogDirMap : List (String × DeviceMapInfo) :=
  [("A-0", { device := "astar", devicePortType := "analogIn", devicePort := 0
             direction := some PortDirection.IN })]

/- ===================== Helper lemmas ===================== -/

lemma shiftRight_and_one_beq (x k : Nat) :
    (((x >>> k) &&& 1) == 1) = Nat.testBit x k := by
  simp [Nat.testBit]

lemma and_one_beq (x : Nat) : ((x &&& 1) == 1) = Nat.testBit x 0 := by
  simpa using shiftRight_and_one_beq x 0

lemma lookupPort_isSome_iff (m : List (String × DeviceMapInfo)) (name : String) :
    (lookupPort m name).isSome ↔ name ∈ m.map Prod.fst := by
  induction m with
  | nil => simp [lookupPort]
  | cons p rest ih =>
    obtain ⟨k, v⟩ := p
    by_cases h : k = name
    · subst h
      simp [lookupPort]
    · have h2 : ¬ name = k := fun hh => h hh.symm
      simp [lookupPort, h, h2, ih]

lemma buildPortDeviceMaps_ok_keys :
    ∀ (l : List (String × PortMapValue)) (acc m : List (String × DeviceMapInfo)),
      buildPortDeviceMaps l acc = Except.ok m → (acc.map Prod.fst).Nodup →
      (m.map Prod.fst).Nodup ∧ m.map Prod.fst = acc.map Prod.fst ++ l.map Prod.fst := by
  intro l
  induction l with
  | nil =>
    intro acc m h hnd
    simp [buildPortDeviceMaps] at h
    subst h
    simp [hnd]
  | cons p rest ih =>
    intro acc m h hnd
    obtain ⟨portName, mapInfo⟩ := p
    rw [buildPortDeviceMaps] at h
    by_cases hl : (lookupPort acc portName).isSome
    · simp [hl] at h
    · rw [if_neg hl] at h
      have hmem : portName ∉ acc.map Prod.fst := by
        rw [← lookupPort_isSome_iff]
        simpa using hl
      have hacc : ((acc ++ [(portName,
          { device := mapInfo.deviceId, devicePortType := mapInfo.devicePortType,
            devicePort := mapInfo.devicePort,
            direction := mapInfo.direction : DeviceMapInfo })]).map Prod.fst).Nodup := by
        simpa [List.nodup_append, hnd] using hmem
      obtain ⟨h1, h2⟩ := ih _ m h hacc
      refine ⟨h1, ?_⟩
      rw [h2]
      simp

lemma buildPortDeviceMaps_error_shape :
    ∀ (l : List (String × PortMapValue)) (acc : List (String × DeviceMapInfo))
      (e : RobotError), buildPortDeviceMaps l acc = Except.error e →
      ∃ name, e = RobotError.alreadyMappedPort name := by
  intro l
  induction l with
  | nil => intro acc e h; simp [buildPortDeviceMaps] at h
  | cons p rest ih =>
    intro acc e h
    obtain ⟨portName, mapInfo⟩ := p
    rw [buildPortDeviceMaps] at h
    by_cases hl : (lookupPort acc portName).isSome
    · rw [if_pos hl] at h
      exact ⟨portName, by simpa using h.symm⟩
    · rw [if_neg hl] at h
      exact ih _ e h

/- ===================== Claim theorems ===================== -/

/-- C10: every run of the poll routine `getBoardStatus` replaces `d_lastBuf`
and the pending write buffer `d_outBuf` with the freshly read register image,
whatever was buffered before; in particular a flush firing after the poll
writes the poll image, not the discarded buffered writes. -/
theorem getBoardStatus_resets_outBuf (buf : List Nat) (s : AstarState) :
    (getBoardStatus buf s).outBuf = some buf ∧
    (getBoardStatus buf s).lastBuf = buf ∧
    (s.hasNewData = true →
      (flushWrite (getBoardStatus buf s)).2 = [BusEvent.blockWrite s.addr 0 buf]) := by
  refine ⟨rfl, rfl, fun h => ?_⟩
  simp [flushWrite, getBoardStatus, h]

theorem getBoardStatus_resets_outBuf_witness :
    pendingAstar.hasNewData = true ∧
    ((getBoardStatus exBoardBuf pendingAstar).outBuf = some exBoardBuf ∧
     (getBoardStatus exBoardBuf pendingAstar).lastBuf = exBoardBuf ∧
     (flushWrite (getBoardStatus exBoardBuf pendingAstar)).2 =
       [BusEvent.blockWrite pendingAstar.addr 0 exBoardBuf]) :=
  ⟨rfl,
   (getBoardStatus_resets_outBuf exBoardBuf pendingAstar).1,
   (getBoardStatus_resets_outBuf exBoardBuf pendingAstar).2.1,
   (getBoardStatus_resets_outBuf exBoardBuf pendingAstar).2.2 rfl⟩

/-- C6: decoding a 23-byte poll buffer reads buttonA/buttonB/buttonC from bits
0/1/2 of byte 3, the six digital inputs from bits 0..5 of byte 4, analogIn i
from the big-endian unsigned 16-bit word at bytes 5+2i and 6+2i, and the
battery millivolts from the big-endian unsigned 16-bit word at bytes 15..16. -/
theorem getBoardStatus_decode (buf : List Nat) (bs : BoardState)
    (hlen : buf.length = 23) :
    (decodeBoardStatus buf bs).buttonA = (buf.getD 3 0).testBit 0 ∧
    (decodeBoardStatus buf bs).buttonB = (buf.getD 3 0).testBit 1 ∧
    (decodeBoardStatus buf bs).buttonC = (buf.getD 3 0).testBit 2 ∧
    (∀ i, i < 6 →
      (decodeBoardStatus buf bs).digitalIn.getD i false = (buf.getD 4 0).testBit i) ∧
    (∀ i, i < 5 →
      (decodeBoardStatus buf bs).analogIn.getD i 0 =
        256 * buf.getD (5 + 2 * i) 0 + buf.getD (6 + 2 * i) 0) ∧
    (decodeBoardStatus buf bs).battMV = 256 * buf.getD 15 0 + buf.getD 16 0 := by
  refine ⟨?_, ?_, ?_, ?_, ?_, ?_⟩
  · exact and_one_beq (buf.getD 3 0)
  · exact shiftRight_and_one_beq (buf.getD 3 0) 1
  · exact shiftRight_and_one_beq (buf.getD 3 0) 2
  · intro i hi
    interval_cases i <;> exact shiftRight_and_one_beq (buf.getD 4 0) _
  · intro i hi
    interval_cases i <;>
      · simp [decodeBoardStatus, decodeAnalog, Nat.shiftLeft_eq]
        ring
  · simp [decodeBoardStatus, Nat.shiftLeft_eq]
    ring

theorem getBoardStatus_decode_witness :
    exBoardBuf.length = 23 ∧
    ((decodeBoardStatus exBoardBuf boardState0).buttonA =
       (exBoardBuf.getD 3 0).testBit 0 ∧
     (decodeBoardStatus exBoardBuf boardState0).buttonB =
       (exBoardBuf.getD 3 0).testBit 1 ∧
     (decodeBoardStatus exBoardBuf boardState0).buttonC =
       (exBoardBuf.getD 3 0).testBit 2 ∧
     (∀ i, i < 6 →
       (decodeBoardStatus exBoardBuf boardState0).digitalIn.getD i false =
         (exBoardBuf.getD 4 0).testBit i) ∧
     (∀ i, i < 5 →
       (decodeBoardStatus exBoardBuf boardState0).analogIn.getD i 0 =
         256 * exBoardBuf.getD (5 + 2 * i) 0 + exBoardBuf.getD (6 + 2 * i) 0) ∧
     (decodeBoardStatus exBoardBuf boardState0).battMV =
       256 * exBoardBuf.getD 15 0 + exBoardBuf.getD 16 0) ∧
    (decodeBoardStatus exBoardBuf boardState0).buttonA = true ∧
    (decodeBoardStatus exBoardBuf boardState0).buttonB = false ∧
    (decodeBoardStatus exBoardBuf boardState0).buttonC = true ∧
    (decodeBoardStatus exBoardBuf boardState0).analogIn.getD 0 0 = 300 := by
  refine ⟨rfl, getBoardStatus_decode exBoardBuf boardState0 rfl, ?_, ?_, ?_, ?_⟩ <;> decide

/-- C1: a configuration whose port map binds the same logical channel name
twice makes construction throw the already-mapped-port error, and a
successfully constructed port-device map never holds two entries with the
same channel name. -/
theorem setupPortMap_unique (portMap : List (String × PortMapValue)) :
    (¬ (portMap.map Prod.fst).Nodup →
      ∃ name, setupPortMap portMap = Except.error (RobotError.alreadyMappedPort name)) ∧
    (∀ m, setupPortMap portMap = Except.ok m → (m.map Prod.fst).Nodup) := by
  constructor
  · intro hdup
    rcases h : setupPortMap portMap with e | m
    · exact (buildPortDeviceMaps_error_shape portMap [] e h).imp
        (fun name he => by rw [he])
    · exfalso
      obtain ⟨h1, h2⟩ := buildPortDeviceMaps_ok_keys portMap [] m h (by simp)
      rw [h2] at h1
      exact hdup (by simpa using h1)
  · intro m h
    exact (buildPortDeviceMaps_ok_keys portMap [] m h (by simp)).1

theorem setupPortMap_unique_witness :
    ¬ ((dupPortMap.map Prod.fst).Nodup) ∧
    ∃ name, setupPortMap dupPortMap = Except.error (RobotError.alreadyMappedPort name) :=
  ⟨by decide, (setupPortMap_unique dupPortMap).1 (by decide)⟩

/-- C2: whenever the derived channel name (`D-<n>`, `A-<n>`, `PWM-<n>` or
`batt`) has no port-map entry, `configureDigitalPinMode` with a recognized pin
mode, `readDigital`, `readAnalog` and `readBattMV` throw their unmapped-port
errors, and `writeDigital` and `writePWM` throw theirs whenever the router is
enabled. -/
theorem robot_unmapped_port_errors (r : Robot) (channel : Nat) (mode : String)
    (v : Bool) (q : ℚ) :
    (lookupPort r.portDeviceMaps ("D-" ++ toString channel) = none →
      ((pinModeOfString mode).isSome →
        r.configureDigitalPinMode channel mode =
          Except.error (RobotError.unmappedPin ("D-" ++ toString channel))) ∧
      r.readDigital channel =
        Except.error (RobotError.unmappedReadPort ("D-" ++ toString channel)) ∧
      (r.enabled = true →
        r.writeDigital channel v =
          Except.error (RobotError.unmappedWritePort ("D-" ++ toString channel)))) ∧
    (lookupPort r.portDeviceMaps ("A-" ++ toString channel) = none →
      r.readAnalog channel =
        Except.error (RobotError.unmappedReadPort ("A-" ++ toString channel))) ∧
    (lookupPort r.portDeviceMaps "batt" = none →
      r.readBattMV = Except.error (RobotError.unmappedReadPort "batt")) ∧
    (lookupPort r.portDeviceMaps ("PWM-" ++ toString channel) = none →
      r.enabled = true →
      r.writePWM channel q =
        Except.error (RobotError.unmappedWritePort ("PWM-" ++ toString channel))) := by
  refine ⟨fun hD => ⟨fun hm => ?_, ?_, fun hen => ?_⟩, fun hA => ?_, fun hb => ?_,
    fun hP hen => ?_⟩
  · have hn : (pinModeOfString mode).isNone = false := by
      rcases hx : pinModeOfString mode with _ | m
      · rw [hx] at hm; simp at hm
      · rfl
    simp [Robot.configureDigitalPinMode, hn, hD]
  · simp [Robot.readDigital, hD]
  · simp [Robot.writeDigital, hen, hD]
  · simp [Robot.readAnalog, hA]
  · simp [Robot.readBattMV, hb]
  · simp [Robot.writePWM, hen, hP]

theorem robot_unmapped_port_errors_witness :
    lookupPort emptyRobot.portDeviceMaps ("D-" ++ toString 0) = none ∧
    (pinModeOfString "INPUT").isSome = true ∧
    emptyRobot.enabled = true ∧
    emptyRobot.configureDigitalPinMode 0 "INPUT" =
      Except.error (RobotError.unmappedPin ("D-" ++ toString 0)) ∧
    emptyRobot.readDigital 0 =
      Except.error (RobotError.unmappedReadPort ("D-" ++ toString 0)) ∧
    emptyRobot.writeDigital 0 true =
      Except.error (RobotError.unmappedWritePort ("D-" ++ toString 0)) ∧
    emptyRobot.readAnalog 0 =
      Except.error (RobotError.unmappedReadPort ("A-" ++ toString 0)) ∧
    emptyRobot.readBattMV = Except.error (RobotError.unmappedReadPort "batt") ∧
    emptyRobot.writePWM 0 0 =
      Except.error (RobotError.unmappedWritePort ("PWM-" ++ toString 0)) := by
  have h := robot_unmapped_port_errors emptyRobot 0 "INPUT" true 0
  exact ⟨rfl, by decide, rfl, (h.1 rfl).1 (by decide), (h.1 rfl).2.1,
    (h.1 rfl).2.2 rfl, h.2.1 rfl, h.2.2.1 rfl, h.2.2.2 rfl rfl⟩

/-- C8: while the router is disabled, `writeDigital` and `writePWM` return
without delegating any device call, and the three reads do not depend on the
enabled flag at all. -/
theorem robot_disabled_frame (r : Robot) (channel : Nat) (v : Bool) (q : ℚ)
    (hdis : r.enabled = false) :
    r.writeDigital channel v = Except.ok [] ∧
    r.writePWM channel q = Except.ok [] ∧
    (∀ b, Robot.readDigital { r with enabled := b } channel = r.readDigital channel) ∧
    (∀ b, Robot.readAnalog { r with enabled := b } channel = r.readAnalog channel) ∧
    (∀ b, Robot.readBattMV { r with enabled := b } = r.readBattMV) := by
  refine ⟨?_, ?_, fun b => ?_, fun b => ?_, fun b => ?_⟩ <;>
    simp [Robot.writeDigital, Robot.writePWM, Robot.readDigital, Robot.readAnalog,
      Robot.readBattMV, hdis]

theorem robot_disabled_frame_witness :
    disabledRobot.enabled = false ∧
    (disabledRobot.writeDigital 0 true = Except.ok [] ∧
     disabledRobot.writePWM 0 1 = Except.ok [] ∧
     (∀ b, Robot.readDigital { disabledRobot with enabled := b } 0 =
       disabledRobot.readDigital 0) ∧
     (∀ b, Robot.readAnalog { disabledRobot with enabled := b } 0 =
       disabledRobot.readAnalog 0) ∧
     (∀ b, Robot.readBattMV { disabledRobot with enabled := b } =
       disabledRobot.readBattMV)) :=
  ⟨rfl, robot_disabled_frame disabledRobot 0 true 1 rfl⟩

lemma applyBufWrite_pending (s : AstarState) (b : List Nat) (op : BufWriteOp)
    (h1 : s.hasNewData = true) (h2 : s.outBuf = some b) :
    applyBufWrite s op = ({ s with outBuf := some (stepBuf b op) }, []) := by
  obtain ⟨addr, lastBuf, outBuf, hnd, bs⟩ := s
  simp only at h1 h2
  subst h1
  subst h2
  cases op <;>
    simp [applyBufWrite, writeByte, writeWord, writeBuffer, setupWrite, stepBuf]

lemma runBufWrites_pending :
    ∀ (ops : List BufWriteOp) (s : AstarState) (b : List Nat),
      s.hasNewData = true → s.outBuf = some b →
      runBufWrites s ops = ({ s with outBuf := some (mergeWrites b ops) }, []) := by
  intro ops
  induction ops with
  | nil =>
    intro s b h1 h2
    obtain ⟨addr, lastBuf, outBuf, hnd, bs⟩ := s
    simp only at h2
    subst h2
    simp [runBufWrites, mergeWrites]
  | cons op rest ih =>
    intro s b h1 h2
    rw [runBufWrites]
    rw [applyBufWrite_pending s b op h1 h2]
    rw [ih { s with outBuf := some (stepBuf b op) } (stepBuf b op) (by simpa using h1) rfl]
    simp [mergeWrites]

lemma applyBufWrite_first (s : AstarState) (op : BufWriteOp)
    (h1 : s.hasNewData = false) :
    applyBufWrite s op =
      ({ s with
          outBuf := some (stepBuf (s.outBuf.getD s.lastBuf) op)
          hasNewData := true },
        [BusEvent.scheduleFlushTimer]) := by
  obtain ⟨addr, lastBuf, outBuf, hnd, bs⟩ := s
  simp only at h1
  subst h1
  cases outBuf <;> cases op <;>
    simp [applyBufWrite, writeByte, writeWord, writeBuffer, setupWrite, stepBuf]

/-- C3: from a quiescent driver state, any nonempty sequence of buffered
writes issued inside one quiescence window schedules the flush timer exactly
once (later writes do not restart it), touches the bus only when the timer
fires, and the single flush transaction carries the whole pending buffer with
all the writes merged. -/
theorem buffered_writes_single_flush (s : AstarState) (ops : List BufWriteOp)
    (hquiet : s.hasNewData = false) (hne : ops ≠ []) :
    (runBufWrites s ops).2 = [BusEvent.scheduleFlushTimer] ∧
    (runBufWrites s ops).1.outBuf =
      some (mergeWrites (s.outBuf.getD s.lastBuf) ops) ∧
    (flushWrite (runBufWrites s ops).1).2 =
      [BusEvent.blockWrite s.addr 0 (mergeWrites (s.outBuf.getD s.lastBuf) ops)] := by
  obtain ⟨op, rest, rfl⟩ := List.exists_cons_of_ne_nil hne
  have h1 := applyBufWrite_first s op hquiet
  have h2 := runBufWrites_pending rest
    { s with outBuf := some (stepBuf (s.outBuf.getD s.lastBuf) op), hasNewData := true }
    (stepBuf (s.outBuf.getD s.lastBuf) op) rfl rfl
  simp only [runBufWrites, h1, h2]
  exact ⟨by simp, by simp [mergeWrites], by simp [flushWrite, mergeWrites]⟩

theorem buffered_writes_single_flush_witness :
    quietAstar.hasNewData = false ∧ threeWrites ≠ [] ∧
    ((runBufWrites quietAstar threeWrites).2 = [BusEvent.scheduleFlushTimer] ∧
     (runBufWrites quietAstar threeWrites).1.outBuf =
       some (mergeWrites (quietAstar.outBuf.getD quietAstar.lastBuf) threeWrites) ∧
     (flushWrite (runBufWrites quietAstar threeWrites).1).2 =
       [BusEvent.blockWrite quietAstar.addr 0
         (mergeWrites (quietAstar.outBuf.getD quietAstar.lastBuf) threeWrites)]) :=
  ⟨rfl, by decide, buffered_writes_single_flush quietAstar threeWrites rfl (by decide)⟩

/-- C4: after the first flush the driver state contradicts the claim.  The
flush writes the merged buffer to the bus but resets `d_outBuf` to the stale
poll image `d_lastBuf` (not the just-flushed image), and it never clears
`d_hasNewData`, so the next buffered write schedules no new quiescence timer
and no further flush can ever fire. -/
theorem flush_never_rearms :
    (flushWrite (writeByte quietAstar 18 1).1).2 =
      [BusEvent.blockWrite 20 0 (bufSet (List.replicate 23 0) 18 1)] ∧
    (flushWrite (writeByte quietAstar 18 1).1).1.outBuf =
      some (List.replicate 23 0) ∧
    ¬ ((flushWrite (writeByte quietAstar 18 1).1).1.outBuf =
      some (bufSet (List.replicate 23 0) 18 1)) ∧
    (flushWrite (writeByte quietAstar 18 1).1).1.hasNewData = true ∧
    (writeByte (flushWrite (writeByte quietAstar 18 1).1).1 18 3).2 = [] := by
  decide

lemma clampUnit_of_lt (v : ℚ) (h : v < -1) : clampUnit v = -1 := by
  unfold clampUnit
  rw [min_eq_right (by linarith), max_eq_left (by linarith)]

lemma clampUnit_of_gt (v : ℚ) (h : 1 < v) : clampUnit v = 1 := by
  unfold clampUnit
  rw [min_eq_left (by linarith), max_eq_right (by linarith)]

lemma clampUnit_of_mem (v : ℚ) (h1 : -1 ≤ v) (h2 : v ≤ 1) : clampUnit v = v := by
  unfold clampUnit
  rw [min_eq_right h2, max_eq_right h1]

lemma clampUnit_mem (v : ℚ) : -1 ≤ clampUnit v ∧ clampUnit v ≤ 1 :=
  ⟨le_max_left _ _, max_le (by norm_num) (min_le_left _ _)⟩

lemma clampUnit_idem (v : ℚ) : clampUnit (clampUnit v) = clampUnit v :=
  clampUnit_of_mem _ (clampUnit_mem v).1 (clampUnit_mem v).2

lemma signDance (w : ℚ) :
    (if (if w < 0 then (true, -w) else (false, w)).1
      then -((if w < 0 then (true, -w) else (false, w)).2 * 400)
      else (if w < 0 then (true, -w) else (false, w)).2 * 400) = w * 400 := by
  by_cases h : w < 0 <;> simp [h]

lemma ifClamp_eq (v : ℚ) :
    (if (if v < -1 then (-1 : ℚ) else v) > 1 then (1 : ℚ)
      else if v < -1 then (-1 : ℚ) else v) = clampUnit v := by
  split_ifs with h1 h2 h3
  · exact absurd h2 (by norm_num)
  · rw [clampUnit_of_lt v h1]
  · rw [clampUnit_of_gt v h3]
  · rw [clampUnit_of_mem v (by linarith) (by linarith)]

lemma writePWMWire_eq (channel : Nat) (value : ℚ) :
    writePWMWire channel value =
      (19 + channel * 2, twosComplement16 (mathRound (clampUnit value * 400))) := by
  unfold writePWMWire
  simp only
  rw [signDance, ifClamp_eq]
  rfl

/-- C5: `writePWM(channel, value)` sends to register `19 + 2*channel` the
16-bit two's-complement word encoding `round(clamp(value, -1, 1) * 400)`;
the write is invariant under clamping, so any out-of-range input produces
exactly the bus write of the nearest boundary value, and in particular
`writePWM(c, 5)` issues the same write as `writePWM(c, 1)`. -/
theorem writePWM_encoding (channel : Nat) (value : ℚ) :
    writePWMWire channel value =
      (19 + channel * 2, twosComplement16 (mathRound (clampUnit value * 400))) ∧
    writePWMWire channel value = writePWMWire channel (clampUnit value) ∧
    writePWMWire channel 5 = writePWMWire channel 1 :=
  ⟨writePWMWire_eq channel value,
   by rw [writePWMWire_eq, writePWMWire_eq, clampUnit_idem],
   by
     rw [writePWMWire_eq, writePWMWire_eq, clampUnit_of_gt 5 (by norm_num),
       clampUnit_of_mem 1 (by norm_num) (by norm_num)]⟩

set_option maxRecDepth 4000 in
lemma nibble_high_merge :
    ∀ n, n < 8 → ∀ cfg, cfg < 256 →
      ((((n <<< 4) &&& 0xF0) ||| (cfg &&& 0xF)) / 16 = n ∧
       (((n <<< 4) &&& 0xF0) ||| (cfg &&& 0xF)) % 16 = cfg % 16) := by
  decide

set_option maxRecDepth 4000 in
lemma nibble_low_merge :
    ∀ n, n < 8 → ∀ cfg, cfg < 256 →
      (((cfg &&& 0xF0) ||| (n &&& 0xF)) % 16 = n ∧
       ((cfg &&& 0xF0) ||| (n &&& 0xF)) / 16 = cfg / 16) := by
  decide

lemma modeBits_setting_lt (mode : PinMode) : 0x4 ||| modeBits mode < 8 := by
  cases mode <;> decide

/-- C7: `configurePin(channel, mode)` writes config byte `floor(channel / 2)`;
the written byte carries the nibble `0b0100 OR mode_bits` (input = 0b01,
input-with-pullup = 0b10, output = 0b00) in its high nibble when the channel
is even and in its low nibble when it is odd, while the other nibble keeps the
last-known value of that config byte. -/
theorem configurePin_nibbles (s : AstarState) (channel : Nat) (mode : PinMode)
    (hch : channel < 6) (hbyte : s.lastBuf.getD (channel / 2) 0 < 256) :
    (configurePin s channel mode).1 = channel / 2 ∧
    (channel % 2 = 0 →
      ((configurePin s channel mode).2 / 16 = 0x4 ||| modeBits mode ∧
       (configurePin s channel mode).2 % 16 = (s.lastBuf.getD (channel / 2) 0) % 16)) ∧
    (channel % 2 ≠ 0 →
      ((configurePin s channel mode).2 % 16 = 0x4 ||| modeBits mode ∧
       (configurePin s channel mode).2 / 16 = (s.lastBuf.getD (channel / 2) 0) / 16)) := by
  refine ⟨rfl, fun he => ?_, fun ho => ?_⟩
  · show ((if channel % 2 = 0 then _ else _ : Nat) / 16 = _) ∧
      ((if channel % 2 = 0 then _ else _ : Nat) % 16 = _)
    rw [if_pos he]
    exact nibble_high_merge _ (modeBits_setting_lt mode) _ hbyte
  · show ((if channel % 2 = 0 then _ else _ : Nat) % 16 = _) ∧
      ((if channel % 2 = 0 then _ else _ : Nat) / 16 = _)
    rw [if_neg ho]
    exact nibble_low_merge _ (modeBits_setting_lt mode) _ hbyte

theorem configurePin_nibbles_witness :
    (0 : Nat) < 6 ∧ nibbleAstar.lastBuf.getD (0 / 2) 0 < 256 ∧
    ((configurePin nibbleAstar 0 PinMode.INPUT).1 = 0 / 2 ∧
     ((0 : Nat) % 2 = 0 →
       ((configurePin nibbleAstar 0 PinMode.INPUT).2 / 16 =
          0x4 ||| modeBits PinMode.INPUT ∧
        (configurePin nibbleAstar 0 PinMode.INPUT).2 % 16 =
          (nibbleAstar.lastBuf.getD (0 / 2) 0) % 16)) ∧
     ((0 : Nat) % 2 ≠ 0 →
       ((configurePin nibbleAstar 0 PinMode.INPUT).2 % 16 =
          0x4 ||| modeBits PinMode.INPUT ∧
        (configurePin nibbleAstar 0 PinMode.INPUT).2 / 16 =
          (nibbleAstar.lastBuf.getD (0 / 2) 0) / 16))) :=
  ⟨by decide, by decide,
   configurePin_nibbles nibbleAstar 0 PinMode.INPUT (by decide) (by decide)⟩

lemma filterMap_cons_toList {α β : Type} (f : α → Option β) (a : α) (l : List α) :
    (a :: l).filterMap f = (f a).toList ++ l.filterMap f := by
  cases h : f a <;> simp [h]

lemma portEntryStep_parts (acc : PortList) (a : String) (b : DeviceMapInfo) :
    portEntryStep acc a b =
      { digital := acc.digital ++ (portMapEntryD (a, b)).toList
        analog := acc.analog ++ (portMapEntryA (a, b)).toList
        pwm := acc.pwm ++ (portMapEntryPWM (a, b)).toList } := by
  obtain ⟨d, an, pw⟩ := acc
  unfold portEntryStep portMapEntryD portMapEntryA portMapEntryPWM
  by_cases hlen : (jsSplitDash a).length < 2
  · simp [hlen]
  · rcases hp : jsParseInt ((jsSplitDash a)[1]?.getD "") with _ | ch
    · simp [hlen, hp]
    · by_cases hD : (jsSplitDash a)[0]?.getD "" = "D"
      · simp [hlen, hp, hD]
      · by_cases hA : (jsSplitDash a)[0]?.getD "" = "A"
        · simp [hlen, hp, hD, hA]
        · by_cases hP : (jsSplitDash a)[0]?.getD "" = "PWM"
          · simp [hlen, hp, hD, hA, hP]
          · simp [hlen, hp, hD, hA, hP]

lemma getPortList_fold :
    ∀ (m : List (String × DeviceMapInfo)) (acc : PortList),
      m.foldl (fun acc p => portEntryStep acc p.1 p.2) acc =
        { digital := acc.digital ++ m.filterMap portMapEntryD
          analog := acc.analog ++ m.filterMap portMapEntryA
          pwm := acc.pwm ++ m.filterMap portMapEntryPWM } := by
  intro m
  induction m with
  | nil =>
    intro acc
    obtain ⟨d, an, pw⟩ := acc
    simp
  | cons p rest ih =>
    intro acc
    obtain ⟨a, b⟩ := p
    rw [List.foldl_cons, ih, portEntryStep_parts,
      filterMap_cons_toList, filterMap_cons_toList, filterMap_cons_toList]
    simp [List.append_assoc]

/-- C9 counterexample: map the single channel `A-0` with a configured
direction IN; the analog entry returned by `getPortList` carries no direction
property at all, so it does not carry the configured direction. -/
theorem getPortList_direction_cex :
    ¬ (∀ e ∈ (Robot.getPortList
        { portDeviceMaps := analogDirMap, enabled := false }).analog,
        e.direction = some PortDirection.IN) := by
  decide

/-- C9 (amended): `getPortList` is a pure function of the port-device map; a
`D-<n>` entry contributes `{channel n, direction-or-default-BOTH}` to the
digital list, while `A-<n>` and `PWM-<n>` entries contribute only their
channel number (no direction property) to the analog and pwm lists. -/
theorem getPortList_characterization (r : Robot) :
    r.getPortList.digital = r.portDeviceMaps.filterMap portMapEntryD ∧
    r.getPortList.analog = r.portDeviceMaps.filterMap portMapEntryA ∧
    r.getPortList.pwm = r.portDeviceMaps.filterMap portMapEntryPWM := by
  unfold Robot.getPortList
  rw [getPortList_fold]
  simp
